import Mathlib

/-!
Verification development for the `simplestruct` library.

Part A embeds `simplestruct/type.py` (the type-checking helpers
`checktype`, `checktype_seq`, `check_spec`) over a small model of Python
values and types.

Part B models the record engine (`Struct` / `Field` / `MetaStruct`) from
the specification, since `simplestruct/struct.py` itself is not part of
the available sources (only its unit tests are).
-/

namespace SimpleStruct

/-- Model of the Python types that the type-checking helpers can observe. -/
inductive PyType where
  | object
  | intT
  | boolT
  | strT
  | listT
  | tupleT
  | genT
  | noneT
deriving DecidableEq

mutual
/-- Model of Python values: scalars plus the sequence-ish containers
(`list`, `tuple`) and generators (iterable but without `len`). -/
inductive PyVal where
  | none
  | bool (b : Bool)
  | int (n : Int)
  | str (s : String)
  | list (xs : PyValList)
  | tuple (xs : PyValList)
  | gen (xs : PyValList)
/-- Lists of Python values (mutual with `PyVal` so equality is decidable). -/
inductive PyValList where
  | nil
  | cons (x : PyVal) (xs : PyValList)
end

deriving instance DecidableEq for PyVal
deriving instance DecidableEq for PyValList

/-- Convert a modelled value list to a Lean list. -/
def PyValList.toList : PyValList → List PyVal
  | .nil => []
  | .cons x xs => x :: xs.toList

/-- Convert a Lean list to a modelled value list. -/
def PyValList.ofList : List PyVal → PyValList
  | [] => .nil
  | x :: xs => .cons x (PyValList.ofList xs)

/-- Build a Python `list` value from a Lean list of elements. -/
def PyVal.mkList (xs : List PyVal) : PyVal :=
  .list (PyValList.ofList xs)

/-- Build a Python `tuple` value from a Lean list of elements. -/
def PyVal.mkTuple (xs : List PyVal) : PyVal :=
  .tuple (PyValList.ofList xs)

/-- Build a generator value from a Lean list of elements. -/
def PyVal.mkGen (xs : List PyVal) : PyVal :=
  .gen (PyValList.ofList xs)

/-- `type(v).__name__` for a modelled value. -/
def typeName : PyType → String
  | .object => "object"
  | .intT => "int"
  | .boolT => "bool"
  | .strT => "str"
  | .listT => "list"
  | .tupleT => "tuple"
  | .genT => "generator"
  | .noneT => "NoneType"

/-- The concrete Python type of a modelled value. -/
def typeOf : PyVal → PyType
  | .none => .noneT
  | .bool _ => .boolT
  | .int _ => .intT
  | .str _ => .strT
  | .list _ => .listT
  | .tuple _ => .tupleT
  | .gen _ => .genT

/-- `isinstance(v, t)` for a single type: everything is an `object`, and
`bool` is a subclass of `int`; otherwise the type must match exactly. -/
def isinstance1 (v : PyVal) (t : PyType) : Bool :=
  match t with
  | .object => true
  | .intT => typeOf v = PyType.intT || typeOf v = PyType.boolT
  | t => typeOf v = t

/-- `isinstance(v, kind)` for a normalized kind (tuple of types). -/
def isinstanceK (v : PyVal) (ks : List PyType) : Bool :=
  ks.any (fun t => isinstance1 v t)

/-- The alternative forms a kind may be given in (`None`, a single type, a
tuple of types, or a non-tuple sequence of types), per type.py's comments. -/
inductive KindSpec where
  | noneK
  | single (t : PyType)
  | tup (ts : List PyType)
  | seqOf (ts : List PyType)
deriving DecidableEq

/-- `str_valtype(val)` from type.py. -/
def str_valtype (v : PyVal) : String :=
  typeName (typeOf v)

/-- `normalize_kind(kind)` from type.py. -/
def normalize_kind : KindSpec → List PyType
  | .noneK => [.object]
  | .single t => [t]
  | .tup ts => ts
  | .seqOf ts => ts

/-- The forms modifiers may be given in: a space-delimited string or a
sequence of strings. -/
inductive ModsSpec where
  | str (s : String)
  | list (ms : List String)

/-- `normalize_mods(mods)` from type.py: a string is split on whitespace. -/
def normalize_mods : ModsSpec → List String
  | .str s => (s.split Char.isWhitespace).filter (fun t => t ≠ "")
  | .list ms => ms

/-- `str_kind(kind)` from type.py. -/
def str_kind (ks : List PyType) : String :=
  match ks with
  | [] => "()"
  | [t] => typeName t
  | [t1, t2] => typeName t1 ++ " or " ++ typeName t2
  | ts => "one of \x7b" ++ String.intercalate ", " (ts.map typeName) ++ "\x7d"

/-- Whether a raising call succeeded: `Except.ok` means no exception. -/
def excOk {α : Type} (e : Except String α) : Bool :=
  match e with
  | .ok _ => true
  | .error _ => false

/-- `checktype(val, kind)` from type.py: raise TypeError if `val` does not
satisfy `kind`. -/
def checktype (val : PyVal) (kind : KindSpec) : Except String Unit :=
  let k := normalize_kind kind
  if isinstanceK val k then .ok ()
  else .error ("Expected " ++ str_kind k ++ "; got " ++ str_valtype val)

/-- `iter(v)` on the model: the list of elements, or failure. Iterating a
string yields its characters as one-character strings. -/
def pyIter : PyVal → Option (List PyVal)
  | .str s => some (s.data.map (fun c => PyVal.str (String.mk [c])))
  | .list xs => some xs.toList
  | .tuple xs => some xs.toList
  | .gen xs => some xs.toList
  | _ => Option.none

/-- `len(v)` on the model: generators and scalars have no length. -/
def pyLen : PyVal → Option Nat
  | .str s => some s.length
  | .list xs => some xs.toList.length
  | .tuple xs => some xs.toList.length
  | _ => Option.none

/-- The elements a value yields when iterated (empty if not iterable). -/
def elemsOf (v : PyVal) : List PyVal :=
  (pyIter v).getD []

/-- The per-element loop of `checktype_seq`: raise on the first element not
satisfying the kind, reporting its position. -/
def checkElems (exp : String) (k : List PyType) : List PyVal → Nat → Except String Unit
  | [], _ => .ok ()
  | x :: xs, i =>
    if isinstanceK x k then checkElems exp k xs (i + 1)
    else .error ("Expected sequence of " ++ exp ++ "; got sequence with " ++
      str_valtype x ++ " at position " ++ toString i)

/-- The duplicate-detection loop of `checktype_seq`: `seen` accumulates the
elements already visited. -/
def checkDups : List PyVal → List PyVal → Nat → Except String Unit
  | [], _, _ => .ok ()
  | x :: xs, seen, i =>
    if seen.contains x then
      .error ("Duplicate element at position " ++ toString i)
    else checkDups xs (x :: seen) (i + 1)

/-- `checktype_seq(seq, kind, nodups)` from type.py: first require `iter`
and `len` to succeed (generators fail `len`), then reject strings as atomic
values, then check every element against the kind, then optionally reject
duplicates. -/
def checktype_seq (seq : PyVal) (kind : KindSpec) (nodups : Bool) : Except String Unit :=
  let k := normalize_kind kind
  let exp := str_kind k
  match pyIter seq, pyLen seq with
  | some elems, some _ =>
    match seq with
    | .str _ =>
      .error ("Expected sequence of " ++ exp ++ "; got single str (strings " ++
        "do not count as character sequences")
    | _ =>
      match checkElems exp k elems 0 with
      | .error m => .error m
      | .ok _ => if nodups then checkDups elems [] 0 else .ok ()
  | _, _ =>
    .error ("Expected sequence of " ++ exp ++ "; got " ++ str_valtype seq ++
      " instead of sequence")

/-- `check_spec(val, kind, mods)` from type.py. -/
def check_spec (val : PyVal) (kind : KindSpec) (mods : ModsSpec) : Except String Unit :=
  let ms := normalize_mods mods
  if ms.contains "seq" then
    checktype_seq val kind (ms.contains "nodups")
  else
    checktype val kind

/-- Whether a value is a Python string. -/
def isStrVal : PyVal → Bool
  | .str _ => true
  | _ => false

/-- Integer content of a value (0 for non-ints); used by the custom
equality/hash examples, which mirror the `CustomField` of the unit tests. -/
def intOf : PyVal → Int
  | .int n => n
  | .bool b => if b then 1 else 0
  | _ => 0

/-- A deterministic structural hash for modelled strings. -/
def strHashVal (s : String) : Int :=
  Int.ofNat (s.data.foldl (fun a c => a * 31 + c.toNat) 7)

mutual
/-- Modelled from the spec: simplestruct/struct.py is not under src/, so the
default per-field hash ("the value's natural hash") is modelled as a
deterministic structural hash of the value. -/
def pyHash : PyVal → Int
  | .none => 0
  | .bool b => if b then 1 else 0
  | .int n => n
  | .str s => strHashVal s
  | .list xs => 3 + 31 * pyHashList xs
  | .tuple xs => 5 + 31 * pyHashList xs
  | .gen xs => 11 + 31 * pyHashList xs
/-- Structural hash of a value list, order-sensitively combined. -/
def pyHashList : PyValList → Int
  | .nil => 1
  | .cons x xs => pyHash x + 33 * pyHashList xs
end

/-- Modelled from the spec: simplestruct/struct.py is not under src/, so the
`Field` descriptor is modelled as a record of an identity tag `fid` (standing
for Python object identity, so that aliasing of descriptors is observable),
the bound field name, and the per-field equality and hash functions. -/
structure FieldD where
  fid : Nat
  name : String
  eqf : PyVal → PyVal → Bool
  hashf : PyVal → Int

/-- Modelled from the spec: a field declaration as written in a class body
(possibly one shared object reused for several slots, witnessed by a shared
`declId`), before the record engine clones and binds it. -/
structure FieldDecl where
  declId : Nat
  eqf : PyVal → PyVal → Bool
  hashf : PyVal → Int

/-- A default field declaration: structural equality, structural hash
(models `Field()`). -/
def defaultDecl (i : Nat) : FieldDecl :=
  { declId := i, eqf := fun v w => v == w, hashf := pyHash }

/-- Modelled from the spec: a record type, with its name, type-level
immutability flag, ordered bound field list, and optional custom
initializer (phase 2 of construction), acting on the populated field
store. simplestruct/struct.py (class Struct / MetaStruct) is not under
src/. -/
structure RecordType where
  tname : String
  immutable : Bool
  fields : List FieldD
  customInit : Option (List (String × Option PyVal) → List (String × Option PyVal))

/-- The ordered field names of a record type. -/
def fieldNames (T : RecordType) : List String :=
  T.fields.map (fun fd => fd.name)

/-- Modelled from the spec: a record instance holds one (possibly unset)
value per declared field plus the `initializing` lifecycle flag; the
`immutable` flag lives on the type. -/
structure Inst where
  vals : List (String × Option PyVal)
  initializing : Bool
deriving DecidableEq

/-- Look a field's value up in an instance's store (`None` if unset or
absent). -/
def lookupVal : List (String × Option PyVal) → String → Option PyVal
  | [], _ => Option.none
  | (m, o) :: rest, n => if m = n then o else lookupVal rest n

/-- The stored value of a field, with `PyVal.none` standing for unset. -/
def valueAt (i : Inst) (n : String) : PyVal :=
  (lookupVal i.vals n).getD PyVal.none

/-- Store a value for a field in an instance's store. -/
def storeVal : List (String × Option PyVal) → String → PyVal → List (String × Option PyVal)
  | [], n, v => [(n, some v)]
  | (m, o) :: rest, n, v =>
    if m = n then (m, some v) :: rest else (m, o) :: storeVal rest n v

/-- Modelled from the spec: the descriptor's `set(instance, value)`. It
fails with AttributeError exactly when the owning instance's `immutable`
flag is true and its `initializing` flag is false; otherwise it stores the
value unconditionally. -/
def setField (T : RecordType) (i : Inst) (n : String) (v : PyVal) : Except String Inst :=
  if T.immutable && !i.initializing then
    .error ("AttributeError: cannot set field " ++ n ++ " of immutable initialized instance")
  else .ok { i with vals := storeVal i.vals n v }

/-- Modelled from the spec: the descriptor's `get(instance)`, failing with
AttributeError if the field was never set. -/
def getField (i : Inst) (n : String) : Except String PyVal :=
  match lookupVal i.vals n with
  | some v => .ok v
  | _ => .error ("AttributeError: " ++ n)

/-- Modelled from the spec: record equality — defined between instances of
the same record type — compares every field via that field's equality
function. -/
def instEqB (T : RecordType) (a b : Inst) : Bool :=
  T.fields.all (fun fd => fd.eqf (valueAt a fd.name) (valueAt b fd.name))

/-- Modelled from the spec: hashing fails with TypeError while
`initializing` is true (for every type) and for every instance of a
mutable-flagged type after initialization as well; otherwise it combines
every field's hash of its value, order-sensitively, into one integer. -/
def instHash (T : RecordType) (i : Inst) : Except String Int :=
  if i.initializing then
    .error "TypeError: cannot hash instance while it is initializing"
  else if !T.immutable then
    .error ("TypeError: unhashable instance of mutable type " ++ T.tname)
  else
    .ok (T.fields.foldl (fun acc fd => acc * 1000003 + fd.hashf (valueAt i fd.name)) 0)

/-- Bind positional constructor arguments to the earliest fields in order;
fields beyond the supplied arguments stay unset. -/
def posBind : List String → List PyVal → List (String × Option PyVal)
  | [], _ => []
  | n :: ns, [] => (n, Option.none) :: posBind ns []
  | n :: ns, v :: vs => (n, some v) :: posBind ns vs

/-- Bind one keyword argument by name: unknown names and overlap with an
already-bound (positional) value are construction-time errors. -/
def kwAssign : List (String × Option PyVal) → String → PyVal → Except String (List (String × Option PyVal))
  | [], n, _ => .error ("TypeError: unexpected keyword argument " ++ n)
  | (m, o) :: rest, n, v =>
    if m = n then
      match o with
      | some _ => .error ("TypeError: multiple values for argument " ++ n)
      | _ => .ok ((m, some v) :: rest)
    else
      match kwAssign rest n v with
      | .error msg => .error msg
      | .ok r => .ok ((m, o) :: r)

/-- Bind a list of keyword arguments in order. -/
def bindKws : List (String × Option PyVal) → List (String × PyVal) → Except String (List (String × Option PyVal))
  | base, [] => .ok base
  | base, (n, v) :: rest =>
    match kwAssign base n v with
    | .error msg => .error msg
    | .ok b2 => bindKws b2 rest

/-- Modelled from the spec: the two-phase construction protocol of
simplestruct/struct.py (not under src/). Phase 1 populates the ordered
fields from positional and keyword arguments (too many positional
arguments, unknown keywords and positional/keyword overlap are errors);
phase 2 runs the optional custom initializer on the populated store; the
instance then locks (`initializing` becomes false). A field left unset
after phase 2 is an error. -/
def construct (T : RecordType) (pos : List PyVal) (kw : List (String × PyVal)) : Except String Inst :=
  if (fieldNames T).length < pos.length then
    .error "TypeError: too many positional arguments"
  else
    match bindKws (posBind (fieldNames T) pos) kw with
    | .error msg => .error msg
    | .ok v1 =>
      let v2 := match T.customInit with
        | some f => f v1
        | _ => v1
      if v2.all (fun p => p.2.isSome) then
        .ok { vals := v2, initializing := false }
      else
        .error "AttributeError: field not set during construction"

/-- The keyword arguments `_replace` passes on: every field keeps the
original instance's value except the overridden one. -/
def replaceArgs (T : RecordType) (a : Inst) (f : String) (v : PyVal) : List (String × PyVal) :=
  T.fields.map (fun fd => (fd.name, if fd.name = f then v else valueAt a fd.name))

/-- Modelled from the spec: `_replace` produces a new instance with the
named field overridden and every other field copied from the original,
going through the full construction protocol. -/
def replaceInst (T : RecordType) (a : Inst) (f : String) (v : PyVal) : Except String Inst :=
  construct T [] (replaceArgs T a f v)

/-- The positional arguments a pickle `__reduce__` records: the instance's
field values in field order. -/
def reduceArgs (T : RecordType) (i : Inst) : List PyVal :=
  (fieldNames T).map (fun n => valueAt i n)

/-- Modelled from the spec: pickle round-trip — serialize then restore —
reconstructs through the same two-phase construction protocol from the
instance's field values (not by raw field copying). -/
def pickleRoundTrip (T : RecordType) (i : Inst) : Except String Inst :=
  construct T (reduceArgs T i) []

/-- Modelled from the spec: deep-duplication reconstructs through the same
two-phase construction protocol, exactly like pickle restore. -/
def deepcopyInst (T : RecordType) (i : Inst) : Except String Inst :=
  construct T (reduceArgs T i) []

/-- Modelled from the spec: binding field declarations to a record type
clones every declaration (fresh `fid` per slot, consecutive from `base`)
and records the field's name on the clone, so no two slots share a
descriptor object. -/
def bindFields : List (String × FieldDecl) → Nat → List FieldD
  | [], _ => []
  | (n, d) :: rest, b =>
    { fid := b, name := n, eqf := d.eqf, hashf := d.hashf } :: bindFields rest (b + 1)

/-- Whether a list of field names has no repetition. -/
def namesDistinct : List String → Bool
  | [] => true
  | n :: ns => !(ns.contains n) && namesDistinct ns

/-- Modelled from the spec: type definition — with field inheritance
enabled the base type's ordered fields come first, then the locally
declared fields (cloned and bound); a name collision anywhere in the
concatenated list is an AttributeError at definition time. -/
def defineType (tn : String) (imm : Bool) (baseFields : List FieldD) (inheritFields : Bool)
    (decls : List (String × FieldDecl))
    (ci : Option (List (String × Option PyVal) → List (String × Option PyVal)))
    (b : Nat) : Except String RecordType :=
  let inherited := if inheritFields then baseFields else []
  let locFields := bindFields decls b
  let allF := inherited ++ locFields
  if namesDistinct (allF.map (fun fd => fd.name)) then
    .ok { tname := tn, immutable := imm, fields := allF, customInit := ci }
  else
    .error ("AttributeError: duplicate field name in definition of " ++ tn)

/-- Rebind the name of the descriptor in slot `k` (mutating one slot's
descriptor state). -/
def setNameAt : List FieldD → Nat → String → List FieldD
  | [], _, _ => []
  | fd :: rest, 0, n => { fd with name := n } :: rest
  | fd :: rest, k + 1, n => fd :: setNameAt rest k n

/-! ## Lemmas about the type-checking helpers -/

theorem checkElems_ok_iff (exp : String) (k : List PyType) (xs : List PyVal) (i : Nat) :
    excOk (checkElems exp k xs i) = true ↔ ∀ x ∈ xs, isinstanceK x k = true := by
  induction xs generalizing i with
  | nil => simp [checkElems, excOk]
  | cons x xs ih =>
    rw [checkElems]
    by_cases h : isinstanceK x k = true
    · rw [if_pos h, ih]
      simp [h]
    · rw [if_neg h]
      constructor
      · intro hfalse
        simp [excOk] at hfalse
      · intro hall
        exact absurd (hall x (List.mem_cons_self x xs)) h

theorem checkDups_ok_iff (xs : List PyVal) (seen : List PyVal) (i : Nat) :
    excOk (checkDups xs seen i) = true ↔ (xs.Nodup ∧ ∀ x ∈ xs, x ∉ seen) := by
  induction xs generalizing seen i with
  | nil => simp [checkDups, excOk]
  | cons x xs ih =>
    rw [checkDups]
    by_cases h : seen.contains x = true
    · rw [if_pos h]
      constructor
      · intro hfalse
        simp [excOk] at hfalse
      · intro hcon
        have hx : x ∈ seen := by simpa using h
        exact absurd hx (hcon.2 x (List.mem_cons_self x xs))
    · rw [if_neg h, ih (x :: seen) (i + 1)]
      have hxs : x ∉ seen := by simpa using h
      constructor
      · rintro ⟨hnd, hall⟩
        refine ⟨List.nodup_cons.mpr ⟨?_, hnd⟩, ?_⟩
        · intro hmem
          have hx := hall x hmem
          simp at hx
        · intro y hy
          rcases List.mem_cons.mp hy with hy | hy
          · exact hy ▸ hxs
          · exact fun hsn => hall y hy (List.mem_cons_of_mem x hsn)
      · rintro ⟨hnd, hall⟩
        rcases List.nodup_cons.mp hnd with ⟨hxnot, hnd'⟩
        refine ⟨hnd', ?_⟩
        intro y hy hmem
        rcases List.mem_cons.mp hmem with hyx | hys
        · exact hxnot (hyx ▸ hy)
        · exact hall y (List.mem_cons_of_mem x hy) hys

theorem seqChecks_ok_iff (exp : String) (k : List PyType) (elems : List PyVal) (nodups : Bool) :
    excOk (match checkElems exp k elems 0 with
           | .error m => Except.error m
           | .ok _ => if nodups then checkDups elems [] 0 else Except.ok ()) = true ↔
      ((∀ x ∈ elems, isinstanceK x k = true) ∧ (nodups = true → elems.Nodup)) := by
  cases hc : checkElems exp k elems 0 with
  | ok u =>
    have hall : ∀ x ∈ elems, isinstanceK x k = true :=
      (checkElems_ok_iff exp k elems 0).mp (by rw [hc]; rfl)
    cases nodups with
    | false => exact ⟨fun _ => ⟨hall, by simp⟩, fun _ => rfl⟩
    | true =>
      constructor
      · intro hok
        have hok' : excOk (checkDups elems [] 0) = true := by simpa using hok
        exact ⟨hall, fun _ => ((checkDups_ok_iff elems [] 0).mp hok').1⟩
      · intro hcon
        have hok' : excOk (checkDups elems [] 0) = true :=
          (checkDups_ok_iff elems [] 0).mpr ⟨hcon.2 rfl, by simp⟩
        simpa using hok'
  | error m =>
    have hnall : ¬ ∀ x ∈ elems, isinstanceK x k = true := by
      intro hall
      have hok := (checkElems_ok_iff exp k elems 0).mpr hall
      rw [hc] at hok
      simp [excOk] at hok
    constructor
    · intro hfalse
      simp [excOk] at hfalse
    · intro hcon
      exact absurd hcon.1 hnall

theorem checktype_seq_ok_iff (seq : PyVal) (kind : KindSpec) (nodups : Bool) :
    excOk (checktype_seq seq kind nodups) = true ↔
      ((pyLen seq).isSome = true ∧ isStrVal seq = false ∧
       (∀ x ∈ elemsOf seq, isinstanceK x (normalize_kind kind) = true) ∧
       (nodups = true → (elemsOf seq).Nodup)) := by
  cases seq with
  | none => simp [checktype_seq, pyIter, pyLen, isStrVal, excOk, elemsOf]
  | bool b => simp [checktype_seq, pyIter, pyLen, isStrVal, excOk, elemsOf]
  | int n => simp [checktype_seq, pyIter, pyLen, isStrVal, excOk, elemsOf]
  | str s => simp [checktype_seq, pyIter, pyLen, isStrVal, excOk, elemsOf]
  | gen xs => simp [checktype_seq, pyIter, pyLen, isStrVal, excOk, elemsOf]
  | list xs =>
    simpa [checktype_seq, pyIter, pyLen, isStrVal, elemsOf] using
      seqChecks_ok_iff (str_kind (normalize_kind kind)) (normalize_kind kind) xs.toList nodups
  | tuple xs =>
    simpa [checktype_seq, pyIter, pyLen, isStrVal, elemsOf] using
      seqChecks_ok_iff (str_kind (normalize_kind kind)) (normalize_kind kind) xs.toList nodups

/-! ## Claims about the type-checking helpers -/

/-- C7 (corrected): `check_spec(val, kind, mods)` returns normally iff,
without the `seq` modifier, `val` is an instance of some type of the
normalized kind; with `seq`, iff `val` is a non-string length-supporting
sequence all of whose elements are instances of the kind, and — when
`nodups` is also given — without two equal elements (strings, though
length-supporting sequences, are always rejected as atomic values).
Without `seq`, a failing check raises a TypeError whose message names the
expected kind and the received value's type. -/
theorem check_spec_raise_characterization (val : PyVal) (kind : KindSpec) (mods : ModsSpec) :
    (excOk (check_spec val kind mods) = true ↔
      (if (normalize_mods mods).contains "seq" = true then
        ((pyLen val).isSome = true ∧ isStrVal val = false ∧
         (∀ x ∈ elemsOf val, isinstanceK x (normalize_kind kind) = true) ∧
         ((normalize_mods mods).contains "nodups" = true → (elemsOf val).Nodup))
      else isinstanceK val (normalize_kind kind) = true)) ∧
    ((normalize_mods mods).contains "seq" = false →
      isinstanceK val (normalize_kind kind) = false →
      check_spec val kind mods =
        Except.error ("Expected " ++ str_kind (normalize_kind kind) ++ "; got " ++ str_valtype val)) := by
  constructor
  · by_cases hs : (normalize_mods mods).contains "seq" = true
    · rw [if_pos hs]
      have hs' : "seq" ∈ normalize_mods mods := by simpa using hs
      simpa [check_spec, hs'] using
        checktype_seq_ok_iff val kind ((normalize_mods mods).contains "nodups")
    · rw [if_neg hs]
      rw [Bool.not_eq_true] at hs
      have hs' : "seq" ∉ normalize_mods mods := by simpa using hs
      by_cases hi : isinstanceK val (normalize_kind kind) = true <;>
        simp [check_spec, hs', checktype, hi, excOk]
  · intro hs hi
    have hs' : "seq" ∉ normalize_mods mods := by simpa using hs
    simp [check_spec, hs', checktype, hi]

/-- C7 counterexample: the string `"foo"` is a length-supporting sequence
every element of which is an instance of `str`, yet
`check_spec("foo", str, ('seq',))` raises TypeError. -/
theorem check_spec_seq_counterexample :
    (pyLen (PyVal.str "foo")).isSome = true ∧
    ((elemsOf (PyVal.str "foo")).all
      (fun x => isinstanceK x (normalize_kind (KindSpec.single PyType.strT)))) = true ∧
    excOk (check_spec (PyVal.str "foo") (KindSpec.single PyType.strT) (ModsSpec.list ["seq"])) = false := by
  decide

/-- C7 witness: a failing plain check carries the expected/got message. -/
theorem check_spec_raise_characterization_witness :
    check_spec (PyVal.int 1) (KindSpec.single PyType.strT) (ModsSpec.list []) =
      Except.error ("Expected " ++ str_kind (normalize_kind (KindSpec.single PyType.strT)) ++
        "; got " ++ str_valtype (PyVal.int 1)) :=
  (check_spec_raise_characterization (PyVal.int 1) (KindSpec.single PyType.strT)
    (ModsSpec.list [])).2 (by decide) (by decide)

/-- C9 (confirmed): `checktype_seq` raises TypeError on every string, no
matter the kind, and `check_spec` with the `seq` modifier therefore rejects
every string value. -/
theorem checktype_seq_rejects_strings (s : String) (kind : KindSpec) (nodups : Bool)
    (mods : ModsSpec) (hs : (normalize_mods mods).contains "seq" = true) :
    excOk (checktype_seq (PyVal.str s) kind nodups) = false ∧
    excOk (check_spec (PyVal.str s) kind mods) = false := by
  have hs' : "seq" ∈ normalize_mods mods := by simpa using hs
  constructor
  · simp [checktype_seq, pyIter, pyLen, excOk]
  · simp [check_spec, hs', checktype_seq, pyIter, pyLen, excOk]

/-- C9 witness: instantiated at `"foo"` and kind `str`. -/
theorem checktype_seq_rejects_strings_witness :
    excOk (checktype_seq (PyVal.str "foo") (KindSpec.single PyType.strT) false) = false ∧
    excOk (check_spec (PyVal.str "foo") (KindSpec.single PyType.strT) (ModsSpec.list ["seq"])) = false :=
  checktype_seq_rejects_strings "foo" (KindSpec.single PyType.strT) false
    (ModsSpec.list ["seq"]) (by decide)

/-- C10 (confirmed): with a modifier list containing `nodups` but not
`seq`, `check_spec` behaves exactly like `checktype`: the duplicate check
is silently skipped. -/
theorem check_spec_nodups_without_seq (val : PyVal) (kind : KindSpec) (mods : ModsSpec)
    (hnd : (normalize_mods mods).contains "nodups" = true)
    (hs : (normalize_mods mods).contains "seq" = false) :
    check_spec val kind mods = checktype val kind := by
  have hs' : "seq" ∉ normalize_mods mods := by simpa using hs
  simp [check_spec, hs']

/-- C10 witness: instantiated at a duplicate-carrying list value. -/
theorem check_spec_nodups_without_seq_witness :
    check_spec (PyVal.mkList [PyVal.int 1, PyVal.int 1]) KindSpec.noneK
        (ModsSpec.list ["nodups"]) =
      checktype (PyVal.mkList [PyVal.int 1, PyVal.int 1]) KindSpec.noneK :=
  check_spec_nodups_without_seq (PyVal.mkList [PyVal.int 1, PyVal.int 1]) KindSpec.noneK
    (ModsSpec.list ["nodups"]) (by decide) (by decide)

/-! ## Lemmas about the record-engine model -/

theorem lookupVal_storeVal (vals : List (String × Option PyVal)) (n : String) (v : PyVal) :
    lookupVal (storeVal vals n v) n = some v := by
  induction vals with
  | nil => simp [storeVal, lookupVal]
  | cons p rest ih =>
    rcases p with ⟨m, o⟩
    by_cases h : m = n
    · simp [storeVal, h, lookupVal]
    · simp [storeVal, h, lookupVal, ih]

theorem instEqB_refl (T : RecordType) (r : Inst)
    (hrefl : ∀ fd ∈ T.fields, ∀ w, fd.eqf w w = true) :
    instEqB T r r = true := by
  simp only [instEqB, List.all_eq_true]
  intro fd hfd
  exact hrefl fd hfd _

theorem hashFold_congr (a b : Inst) (fds : List FieldD) (acc : Int)
    (h : ∀ fd ∈ fds, fd.hashf (valueAt a fd.name) = fd.hashf (valueAt b fd.name)) :
    fds.foldl (fun acc fd => acc * 1000003 + fd.hashf (valueAt a fd.name)) acc =
      fds.foldl (fun acc fd => acc * 1000003 + fd.hashf (valueAt b fd.name)) acc := by
  induction fds generalizing acc with
  | nil => rfl
  | cons fd rest ih =>
    simp only [List.foldl_cons]
    rw [h fd (List.mem_cons_self fd rest)]
    exact ih _ (fun g hg => h g (List.mem_cons_of_mem fd hg))

theorem posBind_map (g : String → PyVal) (ns : List String) :
    posBind ns (ns.map g) = ns.map (fun n => (n, some (g n))) := by
  induction ns with
  | nil => rfl
  | cons n ns ih => simp [posBind, ih]

theorem lookupVal_map_self (g : String → PyVal) (ns : List String) (n : String) (h : n ∈ ns) :
    lookupVal (ns.map (fun m => (m, some (g m)))) n = some (g n) := by
  induction ns with
  | nil => cases h
  | cons m ns ih =>
    by_cases hm : m = n
    · subst hm
      simp [lookupVal]
    · have hn : n ∈ ns := by
        rcases List.mem_cons.mp h with h1 | h1
        · exact absurd h1.symm hm
        · exact h1
      simp [lookupVal, hm, ih hn]

theorem construct_pos_map (T : RecordType) (g : String → PyVal)
    (hci : T.customInit = Option.none) :
    construct T ((fieldNames T).map g) [] =
      Except.ok { vals := (fieldNames T).map (fun n => (n, some (g n))), initializing := false } := by
  unfold construct
  rw [if_neg (by simp)]
  rw [posBind_map g (fieldNames T)]
  simp [bindKws, hci, List.all_map, Function.comp]

theorem bindFields_names (ds : List (String × FieldDecl)) (b : Nat) :
    (bindFields ds b).map (fun fd => fd.name) = ds.map (fun p => p.1) := by
  induction ds generalizing b with
  | nil => rfl
  | cons p rest ih =>
    rcases p with ⟨n, d⟩
    simp [bindFields, ih]

theorem namesDistinct_append_false (l1 l2 : List String) (n : String)
    (h1 : n ∈ l1) (h2 : n ∈ l2) : namesDistinct (l1 ++ l2) = false := by
  induction l1 with
  | nil => cases h1
  | cons m rest ih =>
    rcases List.mem_cons.mp h1 with hm | hm
    · have hc : m ∈ rest ++ l2 := hm ▸ (List.mem_append_right rest h2)
      simp [namesDistinct, hc]
    · simp [namesDistinct, ih hm]

theorem bindFields_fid_bound (ds : List (String × FieldDecl)) (b : Nat) :
    ∀ x ∈ (bindFields ds b).map (fun fd => fd.fid), b ≤ x ∧ x < b + ds.length := by
  induction ds generalizing b with
  | nil => intro x hx; cases hx
  | cons p rest ih =>
    rcases p with ⟨nm, d⟩
    intro x hx
    rw [bindFields, List.map_cons] at hx
    rcases List.mem_cons.mp hx with h | h
    · have hxb : x = b := h
      simp only [List.length_cons]
      omega
    · have hb := ih (b + 1) x h
      simp only [List.length_cons]
      omega

theorem bindFields_fid_nodup (ds : List (String × FieldDecl)) (b : Nat) :
    ((bindFields ds b).map (fun fd => fd.fid)).Nodup := by
  induction ds generalizing b with
  | nil => simp [bindFields]
  | cons p rest ih =>
    rcases p with ⟨n, d⟩
    simp only [bindFields, List.map_cons]
    refine List.nodup_cons.mpr ⟨?_, ih (b + 1)⟩
    intro hmem
    have hb := bindFields_fid_bound rest (b + 1) b hmem
    omega

theorem setNameAt_other (l : List FieldD) (j k : Nat) (n : String) (hjk : j ≠ k) :
    (setNameAt l k n)[j]? = l[j]? := by
  induction l generalizing j k with
  | nil => simp [setNameAt]
  | cons fd rest ih =>
    cases k with
    | zero =>
      cases j with
      | zero => exact absurd rfl hjk
      | succ j => simp [setNameAt]
    | succ k =>
      cases j with
      | zero => simp [setNameAt]
      | succ j => simp [setNameAt, ih j k (fun h => hjk (by rw [h]))]

/-! ## Claims about the record engine (modelled from the spec) -/

/-- C1 (corrected): for an immutable record type and two fully-initialized
instances, `a == b` holds iff every declared field's equality function
accepts the corresponding field values; and — provided every field's hash
function is consistent with its equality function (eq-equal values hash
alike, the contract of a default field) — equal instances have equal
hashes. -/
theorem struct_eq_hash (T : RecordType) (a b : Inst)
    (himm : T.immutable = true) (ha : a.initializing = false) (hb : b.initializing = false)
    (hcons : ∀ fd ∈ T.fields, ∀ v w, fd.eqf v w = true → fd.hashf v = fd.hashf w) :
    (instEqB T a b = true ↔
      ∀ fd ∈ T.fields, fd.eqf (valueAt a fd.name) (valueAt b fd.name) = true) ∧
    (instEqB T a b = true → instHash T a = instHash T b) := by
  constructor
  · simp [instEqB, List.all_eq_true]
  · intro heq
    have hpt : ∀ fd ∈ T.fields, fd.hashf (valueAt a fd.name) = fd.hashf (valueAt b fd.name) :=
      fun fd hfd => hcons fd hfd _ _ ((List.all_eq_true.mp heq) fd hfd)
    simp only [instHash, ha, hb, himm]
    simp only [Bool.not_true, if_false]
    exact congrArg Except.ok (hashFold_congr a b T.fields 0 hpt)

/-- C1 counterexample: with a per-field custom equality (`v*w > 0`) and
custom hash (`2*v`) — the `CustomField` of the unit tests — two equal,
fully-initialized instances of an immutable type hash differently
(`hash(FooB(5)) = 10`, `hash(FooB(6)) = 12`), so `a == b` does not imply
`hash(a) == hash(b)` as the claim states. -/
theorem struct_eq_hash_counterexample :
    (let T : RecordType :=
      ⟨"FooB", true,
       [⟨0, "bar", fun v w => decide (0 < intOf v * intOf w), fun v => 2 * intOf v⟩],
       Option.none⟩
     let a : Inst := ⟨[("bar", some (PyVal.int 5))], false⟩
     let b : Inst := ⟨[("bar", some (PyVal.int 6))], false⟩
     T.immutable = true ∧ a.initializing = false ∧ b.initializing = false ∧
       instEqB T a b = true ∧ instHash T a = Except.ok 10 ∧ instHash T b = Except.ok 12 ∧
       (10 : Int) ≠ 12) :=
  ⟨rfl, rfl, rfl, by decide, rfl, rfl, by decide⟩

/-- C1 witness: at a default-equality field, equal instances hash alike. -/
theorem struct_eq_hash_witness :
    instHash ⟨"Foo", true, [⟨0, "bar", fun v w => v == w, pyHash⟩], Option.none⟩
        ⟨[("bar", some (PyVal.int 5))], false⟩ =
      instHash ⟨"Foo", true, [⟨0, "bar", fun v w => v == w, pyHash⟩], Option.none⟩
        ⟨[("bar", some (PyVal.int 5))], false⟩ :=
  (struct_eq_hash ⟨"Foo", true, [⟨0, "bar", fun v w => v == w, pyHash⟩], Option.none⟩
    ⟨[("bar", some (PyVal.int 5))], false⟩ ⟨[("bar", some (PyVal.int 5))], false⟩
    rfl rfl rfl
    (by
      intro fd hfd v w hvw
      have hfd' : fd = ⟨0, "bar", fun v w => v == w, pyHash⟩ := by simpa using hfd
      subst hfd'
      exact congrArg pyHash (eq_of_beq hvw))).2 (by decide)

/-- C2 (confirmed): hashing raises TypeError while the instance is
initializing (whatever the type's immutability), and on every instance of
a mutable-flagged type after initialization too; it succeeds exactly on a
fully initialized instance of an immutable type. -/
theorem instHash_ok_iff (T : RecordType) (i : Inst) :
    excOk (instHash T i) = true ↔ (i.initializing = false ∧ T.immutable = true) := by
  cases hi : i.initializing <;> cases hm : T.immutable <;>
    simp [instHash, hi, hm, excOk]

/-- C3 (confirmed): a field write through a descriptor raises
AttributeError exactly when the owning type's immutable flag is true and
the instance's initializing flag is false; in every other state it
succeeds and stores the value. -/
theorem setField_spec (T : RecordType) (i : Inst) (n : String) (v : PyVal) :
    (excOk (setField T i n v) = false ↔ (T.immutable = true ∧ i.initializing = false)) ∧
    (∀ i2, setField T i n v = Except.ok i2 → lookupVal i2.vals n = some v) := by
  constructor
  · cases hm : T.immutable <;> cases hi : i.initializing <;>
      simp [setField, hm, hi, excOk]
  · intro i2 h
    rw [setField] at h
    by_cases hc : (T.immutable && !i.initializing) = true
    · rw [if_pos hc] at h
      cases h
    · rw [if_neg hc] at h
      injection h with h2
      subst h2
      exact lookupVal_storeVal i.vals n v

/-- C3 witness: a write on a mutable instance stores the value. -/
theorem setField_spec_witness :
    lookupVal [("bar", some (PyVal.int 6))] "bar" = some (PyVal.int 6) :=
  (setField_spec ⟨"Foo", false, [⟨0, "bar", fun v w => v == w, pyHash⟩], Option.none⟩
    ⟨[("bar", some (PyVal.int 5))], false⟩ "bar" (PyVal.int 6)).2
    ⟨[("bar", some (PyVal.int 6))], false⟩ rfl

/-- C4 (corrected): `_replace` goes through the full construction
protocol with the original instance's field values and the override, so —
provided every field's equality function is reflexive (as the default
equality is) — its result is equal to a freshly constructed instance with
field `f` set to `v` and every other field taking `a`'s value. -/
theorem replace_correct (T : RecordType) (a : Inst) (f : String) (v : PyVal) (r r2 : Inst)
    (hrefl : ∀ fd ∈ T.fields, ∀ w, fd.eqf w w = true)
    (hinit : a.initializing = false)
    (h1 : replaceInst T a f v = Except.ok r)
    (h2 : construct T [] (replaceArgs T a f v) = Except.ok r2) :
    instEqB T r r2 = true := by
  have h3 := h1.symm.trans h2
  injection h3 with h4
  subst h4
  exact instEqB_refl T r hrefl

/-- C4 counterexample: with a custom, non-reflexive field equality
(`v*w > 0`, which rejects `0 = 0`), the instance produced by
`a._replace(b=2)` and the freshly constructed instance coincide yet do not
compare equal, refuting the claim as stated. -/
theorem replace_counterexample :
    (let T : RecordType :=
      ⟨"Foo", true,
       [⟨0, "a", fun v w => decide (0 < intOf v * intOf w), fun v => 2 * intOf v⟩,
        ⟨1, "b", fun v w => v == w, pyHash⟩],
       Option.none⟩
     let a0 : Inst := ⟨[("a", some (PyVal.int 0)), ("b", some (PyVal.int 1))], false⟩
     let r : Inst := ⟨[("a", some (PyVal.int 0)), ("b", some (PyVal.int 2))], false⟩
     a0.initializing = false ∧
       replaceInst T a0 "b" (PyVal.int 2) = Except.ok r ∧
       construct T [] (replaceArgs T a0 "b" (PyVal.int 2)) = Except.ok r ∧
       instEqB T r r = false) :=
  ⟨rfl, rfl, rfl, by decide⟩

/-- C4 witness: at a two-field default type, replacing field `b`. -/
theorem replace_correct_witness :
    instEqB ⟨"Foo", true, [⟨0, "a", fun v w => v == w, pyHash⟩,
        ⟨1, "b", fun v w => v == w, pyHash⟩], Option.none⟩
      ⟨[("a", some (PyVal.int 1)), ("b", some (PyVal.int 4))], false⟩
      ⟨[("a", some (PyVal.int 1)), ("b", some (PyVal.int 4))], false⟩ = true :=
  replace_correct ⟨"Foo", true, [⟨0, "a", fun v w => v == w, pyHash⟩,
      ⟨1, "b", fun v w => v == w, pyHash⟩], Option.none⟩
    ⟨[("a", some (PyVal.int 1)), ("b", some (PyVal.int 2))], false⟩ "b" (PyVal.int 4)
    ⟨[("a", some (PyVal.int 1)), ("b", some (PyVal.int 4))], false⟩
    ⟨[("a", some (PyVal.int 1)), ("b", some (PyVal.int 4))], false⟩
    (by
      intro fd hfd w
      rcases List.mem_cons.mp hfd with h | h
      · subst h; exact beq_self_eq_true w
      · have h' : fd = ⟨1, "b", fun v w => v == w, pyHash⟩ := by simpa using h
        subst h'; exact beq_self_eq_true w)
    rfl rfl rfl

/-- C5 (confirmed): with field inheritance enabled the derived type's
ordered field list is the base type's fields first, then the locally
declared fields; a local field name colliding with an inherited one makes
the definition fail (AttributeError) at type-definition time. -/
theorem inherit_fields_spec :
    (∀ (tn : String) (imm : Bool) (baseF : List FieldD)
       (ds : List (String × FieldDecl))
       (ci : Option (List (String × Option PyVal) → List (String × Option PyVal)))
       (b : Nat) (T : RecordType),
       defineType tn imm baseF true ds ci b = Except.ok T →
       fieldNames T = baseF.map (fun fd => fd.name) ++ ds.map (fun p => p.1)) ∧
    (∀ (tn : String) (imm : Bool) (baseF : List FieldD)
       (ds : List (String × FieldDecl))
       (ci : Option (List (String × Option PyVal) → List (String × Option PyVal)))
       (b : Nat) (n : String),
       n ∈ baseF.map (fun fd => fd.name) → n ∈ ds.map (fun p => p.1) →
       excOk (defineType tn imm baseF true ds ci b) = false) := by
  constructor
  · intro tn imm baseF ds ci b T h
    simp only [defineType, if_true] at h
    by_cases hd : namesDistinct ((baseF ++ bindFields ds b).map (fun fd => fd.name)) = true
    · rw [if_pos hd] at h
      injection h with h2
      subst h2
      simp [fieldNames, bindFields_names]
    · rw [if_neg hd] at h
      cases h
  · intro tn imm baseF ds ci b n h1 h2
    have h2' : n ∈ (bindFields ds b).map (fun fd => fd.name) := by
      rw [bindFields_names]
      exact h2
    have hd : namesDistinct ((baseF.map (fun fd => fd.name)) ++
        ((bindFields ds b).map (fun fd => fd.name))) = false :=
      namesDistinct_append_false _ _ n h1 h2'
    simp [defineType, hd, excOk]

/-- C5 witness: `Bar(Foo)` inherits field `a` before local `b`; redeclaring
`a` fails at definition time. -/
theorem inherit_fields_spec_witness :
    (fieldNames ⟨"Bar", true,
        bindFields [("a", defaultDecl 0)] 0 ++ bindFields [("b", defaultDecl 1)] 1,
        Option.none⟩ =
      (bindFields [("a", defaultDecl 0)] 0).map (fun fd => fd.name) ++
        [("b", defaultDecl 1)].map (fun p => p.1)) ∧
    excOk (defineType "Baz" true (bindFields [("a", defaultDecl 0)] 0) true
      [("a", defaultDecl 1)] Option.none 1) = false :=
  ⟨inherit_fields_spec.1 "Bar" true (bindFields [("a", defaultDecl 0)] 0)
      [("b", defaultDecl 1)] Option.none 1 _ rfl,
   inherit_fields_spec.2 "Baz" true (bindFields [("a", defaultDecl 0)] 0)
      [("a", defaultDecl 1)] Option.none 1 "a" (by simp [bindFields]) (by simp)⟩

/-- C6 (confirmed): descriptors installed on distinct (type, field) slots
are never the same underlying object — every binding site clones the
declaration into a fresh descriptor (fresh `fid`), even when one shared
declaration object is reused — and rebinding one slot's name leaves every
other slot's descriptor untouched. -/
theorem field_descriptors_distinct :
    (∀ (ds1 ds2 : List (String × FieldDecl)) (b : Nat),
      (((bindFields ds1 b ++ bindFields ds2 (b + ds1.length)).map
        (fun fd => fd.fid)).Nodup)) ∧
    (∀ (l : List FieldD) (j k : Nat) (n : String), j ≠ k →
      (setNameAt l k n)[j]? = l[j]?) := by
  constructor
  · intro ds1 ds2 b
    rw [List.map_append]
    refine List.Nodup.append (bindFields_fid_nodup ds1 b)
      (bindFields_fid_nodup ds2 (b + ds1.length)) ?_
    intro x hx1 hx2
    have hb1 := bindFields_fid_bound ds1 b x hx1
    have hb2 := bindFields_fid_bound ds2 (b + ds1.length) x hx2
    omega
  · intro l j k n hjk
    exact setNameAt_other l j k n hjk

/-- C6 witness: one shared declaration reused for three slots across two
types still yields three distinct descriptors, and renaming slot 1 leaves
slot 0 unchanged. -/
theorem field_descriptors_distinct_witness :
    (((bindFields [("bar1", defaultDecl 7), ("bar2", defaultDecl 7)] 0 ++
        bindFields [("bar3", defaultDecl 7)]
          (0 + [("bar1", defaultDecl 7), ("bar2", defaultDecl 7)].length)).map
      (fun fd => fd.fid)).Nodup) ∧
    (setNameAt (bindFields [("bar1", defaultDecl 7), ("bar2", defaultDecl 7)] 0) 1 "x")[0]? =
      (bindFields [("bar1", defaultDecl 7), ("bar2", defaultDecl 7)] 0)[0]? :=
  ⟨field_descriptors_distinct.1 [("bar1", defaultDecl 7), ("bar2", defaultDecl 7)]
      [("bar3", defaultDecl 7)] 0,
   field_descriptors_distinct.2
      (bindFields [("bar1", defaultDecl 7), ("bar2", defaultDecl 7)] 0) 0 1 "x" (by decide)⟩

/-- C8 (corrected): for a type with no custom initializer and reflexive
per-field equality (as the default equality is), pickle round-trip and
deep-duplication of a fully-initialized instance both reconstruct through
the construction protocol and yield an instance equal to the original. -/
theorem roundtrip_correct (T : RecordType) (i : Inst) (r : Inst)
    (hci : T.customInit = Option.none)
    (hrefl : ∀ fd ∈ T.fields, ∀ w, fd.eqf w w = true)
    (hinit : i.initializing = false)
    (h : pickleRoundTrip T i = Except.ok r) :
    instEqB T r i = true ∧ deepcopyInst T i = Except.ok r := by
  have hred : pickleRoundTrip T i =
      Except.ok (Inst.mk ((fieldNames T).map (fun n => (n, some (valueAt i n)))) false) :=
    construct_pos_map T (fun n => valueAt i n) hci
  have h3 := hred.symm.trans h
  injection h3 with h4
  constructor
  · rw [← h4]
    simp only [instEqB, List.all_eq_true]
    intro fd hfd
    have hmem : fd.name ∈ fieldNames T := List.mem_map_of_mem _ hfd
    have hv : valueAt (Inst.mk ((fieldNames T).map (fun n => (n, some (valueAt i n)))) false)
        fd.name = valueAt i fd.name := by
      show (lookupVal ((fieldNames T).map (fun n => (n, some (valueAt i n)))) fd.name).getD
          PyVal.none = valueAt i fd.name
      rw [lookupVal_map_self (fun n => valueAt i n) (fieldNames T) fd.name hmem]
      rfl
    rw [hv]
    exact hrefl fd hfd _
  · rw [← h]
    rfl

/-- C8 counterexample: a custom initializer that increments the field runs
again on restore, so the pickle round-trip of `bar = 6` rebuilds `bar = 7`
and the restored instance is not equal to the original. -/
theorem roundtrip_counterexample :
    (let T : RecordType :=
      ⟨"Foo", true, [⟨0, "bar", fun v w => v == w, pyHash⟩],
       some (fun vals => vals.map
         (fun p => (p.1, p.2.map (fun v => PyVal.int (intOf v + 1)))))⟩
     let i : Inst := ⟨[("bar", some (PyVal.int 6))], false⟩
     i.initializing = false ∧
       pickleRoundTrip T i = Except.ok ⟨[("bar", some (PyVal.int 7))], false⟩ ∧
       instEqB T ⟨[("bar", some (PyVal.int 7))], false⟩ i = false) :=
  ⟨rfl, rfl, by decide⟩

/-- C8 witness: round-trip of a default one-field instance. -/
theorem roundtrip_correct_witness :
    instEqB ⟨"PickleFoo", true, [⟨0, "a", fun v w => v == w, pyHash⟩], Option.none⟩
        ⟨[("a", some (PyVal.int 1))], false⟩ ⟨[("a", some (PyVal.int 1))], false⟩ = true ∧
      deepcopyInst ⟨"PickleFoo", true, [⟨0, "a", fun v w => v == w, pyHash⟩], Option.none⟩
        ⟨[("a", some (PyVal.int 1))], false⟩ =
        Except.ok ⟨[("a", some (PyVal.int 1))], false⟩ :=
  roundtrip_correct ⟨"PickleFoo", true, [⟨0, "a", fun v w => v == w, pyHash⟩], Option.none⟩
    ⟨[("a", some (PyVal.int 1))], false⟩ ⟨[("a", some (PyVal.int 1))], false⟩
    rfl
    (by
      intro fd hfd w
      have h' : fd = ⟨0, "a", fun v w => v == w, pyHash⟩ := by simpa using hfd
      subst h'
      exact beq_self_eq_true w)
    rfl rfl

end SimpleStruct
